import Mathlib

/-!
# duck: an IRC client that reconnects with exponential back-off

A shallow embedding of `duck.go`.

* `RunOnce` (one connection attempt) is a function from the behaviour of the
  transport (the result of `irc.Dial`, of the k-th `Encode`, and the finite
  list of results the successive `Decode` calls deliver) to the list of events
  the session performs and the way it ends.  A `Decode` call delivers a
  message, a nil message without error, or an error.  A send on the unbuffered
  `success` channel completes only if the other side performs a receive; the
  number of receives the other side performs is an argument.
* `Run` (the supervisor) is modelled one loop iteration at a time, against the
  sequence of channel operations the goroutine `errChan <- RunOnce(...)` offers.
* `time.Duration` is a signed 64-bit count of nanoseconds: `Int` with explicit
  wrap-around at the multiplication.
-/

namespace Duck

set_option maxRecDepth 100000

/-! ## Go values -/

/-- A Go `error` value, identified with the text of its `Error()` method.
The `nil` error is `none : Option GoError`. -/
structure GoError where
  text : String
  deriving DecidableEq, Repr

namespace errors

/-- Go `errors.New`. -/
def New (text : String) : GoError := ⟨text⟩

end errors

namespace time

/-- Go `time.Second`, in nanoseconds. -/
def Second : Int := 1000000000

/-- Go `time.Hour`, in nanoseconds. -/
def Hour : Int := 3600 * Second

end time

/-- Two's-complement wrap-around of a signed 64-bit integer operation. -/
def wrapInt64 (x : Int) : Int := (x + 2 ^ 63) % 2 ^ 64 - 2 ^ 63

/-! ## `strconv.Quote` -/

namespace strconv

/-- The double quote character. -/
def dquote : Char := Char.ofNat 34

/-- The backslash character. -/
def backslash : Char := Char.ofNat 92

/-- Lower-case hexadecimal digit of `n % 16`. -/
def hexDigit (n : Nat) : Char :=
  if n % 16 < 10 then Char.ofNat (48 + n % 16) else Char.ofNat (87 + n % 16)

/-- The `width` lower-case hexadecimal digits of `n`, most significant first. -/
def hexDigits : Nat → Nat → List Char
  | 0, _ => []
  | width + 1, n => hexDigit (n / 16 ^ width) :: hexDigits width n

/-- Go `strconv.IsPrint`.  Up to U+00FF the answer is computed as in the
library; above, the library consults Unicode tables that are not part of this
program: `wide` stands for them. -/
def IsPrint (wide : Char → Bool) (r : Char) : Bool :=
  if r.toNat ≤ 0xFF then
    if 0x20 ≤ r.toNat ∧ r.toNat ≤ 0x7E then true
    else if 0xA1 ≤ r.toNat ∧ r.toNat ≤ 0xFF then r.toNat ≠ 0xAD
    else false
  else wide r

/-- Go `strconv.appendEscapedRune` with the double quote as quote character
(neither ASCII-only nor graphic-only), on a valid rune. -/
def escapeRune (wide : Char → Bool) (r : Char) : List Char :=
  if r = dquote ∨ r = backslash then [backslash, r]
  else if IsPrint wide r then [r]
  else if r.toNat = 7 then [backslash, 'a']
  else if r.toNat = 8 then [backslash, 'b']
  else if r.toNat = 12 then [backslash, 'f']
  else if r.toNat = 10 then [backslash, 'n']
  else if r.toNat = 13 then [backslash, 'r']
  else if r.toNat = 9 then [backslash, 't']
  else if r.toNat = 11 then [backslash, 'v']
  else if r.toNat < 0x20 ∨ r.toNat = 0x7F then backslash :: 'x' :: hexDigits 2 r.toNat
  else if r.toNat < 0x10000 then backslash :: 'u' :: hexDigits 4 r.toNat
  else backslash :: 'U' :: hexDigits 8 r.toNat

/-- Go `strconv.Quote`: a double-quoted Go string literal for `s`. -/
def Quote (wide : Char → Bool) (s : String) : String :=
  String.mk (dquote :: (s.data.flatMap (escapeRune wide) ++ [dquote]))

end strconv

/-! ## The `irc` package: messages and command names -/

namespace irc

/-- An `irc.Message`: command, parameters and trailing text (the sender field
is never set or read by this program). -/
structure Message where
  Command : String
  Params : List String
  Trailing : String
  deriving DecidableEq, Repr

def NICK : String := "NICK"
def USER : String := "USER"
def AWAY : String := "AWAY"
def JOIN : String := "JOIN"
def PING : String := "PING"
def RPL_WELCOME : String := "001"

end irc

open irc (Message)

/-- The `Settings` struct. -/
structure Settings where
  Host : String
  Name : String
  AwayText : String
  Channels : List String
  deriving DecidableEq, Repr

/-! ## The transport, as seen by one session -/

/-- Result of one `conn.Decode()` call: a message with a nil error, a nil
message with a nil error (the line read was empty or too short to be parsed),
or a non-nil error. -/
inductive ReadResult where
  | msg (m : Message)
  | empty
  | fail (e : GoError)
  deriving DecidableEq, Repr

/-- Behaviour of the transport during one session: the error returned by
`irc.Dial` (`none` is `nil`), the error returned by the k-th `conn.Encode`
call (counted from 0), and the results of the successive `conn.Decode` calls.
When the list of results is used up the next `Decode` does not return: the
session is waiting for input. -/
structure Transport where
  dial : Option GoError
  encode : Nat → Option GoError
  decode : List ReadResult

/-- What a session does, in program order. -/
inductive Event where
  | dial (host : String) (err : Option GoError)
  | encode (m : Message) (err : Option GoError)
  | decode (r : ReadResult)
  | signal
  | sleep (d : Int)
  deriving DecidableEq, Repr

/-- How a session ends. -/
inductive Status where
  | returned (err : Option GoError)
  | waitingDecode
  | blockedSignal
  | panicked
  deriving DecidableEq, Repr

/-- The events of a session and the way it ends.  `returned err`: `RunOnce`
returned `err`.  `waitingDecode`: it is inside a `Decode` call for which the
transport has nothing yet.  `blockedSignal`: it is inside `success <- true`
and no receive on the channel will ever come.  `panicked`: it read
`message.Command` of a nil message; the panic ends the whole process. -/
structure Outcome where
  trace : List Event
  status : Status
  deriving DecidableEq, Repr

/-- Events `es` happen, then `o`. -/
def Outcome.after (es : List Event) (o : Outcome) : Outcome :=
  ⟨es ++ o.trace, o.status⟩

/-- The statement pattern `err = conn.Encode(m); if err != nil { return }`:
the k-th `Encode` call of the session sends `m`; on error the session returns
it, otherwise it goes on as `next`. -/
def encodeThen (t : Transport) (k : Nat) (m : Message) (next : Outcome) : Outcome :=
  match t.encode k with
  | some e => ⟨[Event.encode m (some e)], Status.returned (some e)⟩
  | none => next.after [Event.encode m none]

/-- The reply to a `PING`: command `"PONG"`, parameters and trailing text of
the message replied to. -/
def pongFor (m : Message) : Message :=
  { Command := "PONG", Params := m.Params, Trailing := m.Trailing }

/-- The loop `for { message, err := conn.Decode(); ... }` of `RunOnce`.
`recvs` is the number of receives the other side performs on `success`, `k`
the number of `Encode` calls so far, `s` the number of completed sends on
`success` so far. -/
def steadyState (t : Transport) (recvs : Nat) : List ReadResult → Nat → Nat → Outcome
  | [], _, _ => ⟨[], Status.waitingDecode⟩
  | ReadResult.fail e :: _, _, _ =>
      ⟨[Event.decode (ReadResult.fail e)], Status.returned (some e)⟩
  | ReadResult.empty :: _, _, _ =>
      -- `switch message.Command` on a nil message
      ⟨[Event.decode ReadResult.empty], Status.panicked⟩
  | ReadResult.msg m :: rest, k, s =>
      if m.Command = irc.PING then
        if s < recvs then
          (encodeThen t k (pongFor m) (steadyState t recvs rest (k + 1) (s + 1))).after
            [Event.decode (ReadResult.msg m), Event.signal]
        else
          ⟨[Event.decode (ReadResult.msg m)], Status.blockedSignal⟩
      else
        (steadyState t recvs rest k s).after [Event.decode (ReadResult.msg m)]

/-- The `JOIN` message for one channel. -/
def joinMsg (channel : String) : Message :=
  { Command := irc.JOIN, Params := [channel], Trailing := "" }

/-- The loop `for _, channel := range settings.Channels` of `RunOnce`,
followed by the steady-state loop. -/
def joinChannels (t : Transport) (recvs : Nat) (reads : List ReadResult) :
    List String → Nat → Outcome
  | [], k => steadyState t recvs reads k 0
  | channel :: more, k =>
      encodeThen t k (joinMsg channel)
        ((joinChannels t recvs reads more (k + 1)).after [Event.sleep 2])

/-- The `NICK` message of the registration. -/
def nickMsg (settings : Settings) : Message :=
  { Command := irc.NICK, Params := [settings.Name], Trailing := "" }

/-- The `USER` message of the registration. -/
def userMsg (settings : Settings) : Message :=
  { Command := irc.USER, Params := [settings.Name, "0", "*"], Trailing := settings.Name }

/-- The `AWAY` message. -/
def awayMsg (settings : Settings) : Message :=
  { Command := irc.AWAY, Params := [], Trailing := settings.AwayText }

/-- The error `RunOnce` makes when the first message is not the welcome. -/
def welcomeError (wide : Char → Bool) (command : String) : GoError :=
  errors.New ("expected welcome, got" ++ strconv.Quote wide command)

/-- The part of `RunOnce` after the first `Decode` returned message `m`. -/
def afterWelcome (wide : Char → Bool) (settings : Settings) (t : Transport) (recvs : Nat)
    (m : Message) (rest : List ReadResult) : Outcome :=
  if m.Command ≠ irc.RPL_WELCOME then
    ⟨[], Status.returned (some (welcomeError wide m.Command))⟩
  else if settings.AwayText ≠ "" then
    encodeThen t 2 (awayMsg settings) (joinChannels t recvs rest settings.Channels 3)
  else
    joinChannels t recvs rest settings.Channels 2

/-- The statement `message, err := conn.Decode()` after the registration, and
what follows it. -/
def awaitWelcome (wide : Char → Bool) (settings : Settings) (t : Transport) (recvs : Nat) :
    Outcome :=
  match t.decode with
  | [] => ⟨[], Status.waitingDecode⟩
  | ReadResult.fail e :: _ =>
      ⟨[Event.decode (ReadResult.fail e)], Status.returned (some e)⟩
  | ReadResult.empty :: _ =>
      -- `message.Command != irc.RPL_WELCOME` on a nil message
      ⟨[Event.decode ReadResult.empty], Status.panicked⟩
  | ReadResult.msg m :: rest =>
      (afterWelcome wide settings t recvs m rest).after [Event.decode (ReadResult.msg m)]

/-- `RunOnce(settings, success)` on transport `t`, with `recvs` receives
performed on `success` by the other side. -/
def RunOnce (wide : Char → Bool) (settings : Settings) (t : Transport) (recvs : Nat) :
    Outcome :=
  match t.dial with
  | some e => ⟨[Event.dial settings.Host (some e)], Status.returned (some e)⟩
  | none =>
      (encodeThen t 0 (nickMsg settings)
        (encodeThen t 1 (userMsg settings)
          (awaitWelcome wide settings t recvs))).after [Event.dial settings.Host none]

/-! ## The supervisor `Run` -/

/-- `baseDelay := 30 * time.Second`. -/
def baseDelay : Int := 30 * time.Second

/-- `delayFactor := 5`. -/
def delayFactor : Int := 5

/-- `maxDelay := 6 * time.Hour`. -/
def maxDelay : Int := 6 * time.Hour

/-- The update of `nextDelay` at the end of the loop body:
`nextDelay *= time.Duration(delayFactor)` in 64-bit arithmetic, then
`if nextDelay > maxDelay { nextDelay = maxDelay }`. -/
def growDelay (nextDelay : Int) : Int :=
  let grown := wrapInt64 (nextDelay * delayFactor)
  if grown > maxDelay then maxDelay else grown

/-- Value of `nextDelay` after `i` updates from its initial value `baseDelay`,
with no assignment `nextDelay = baseDelay` in between. -/
def delayAt : Nat → Int
  | 0 => baseDelay
  | i + 1 => growDelay (delayAt i)

/-- A channel operation offered to the supervisor by the goroutine
`go func() { errChan <- RunOnce(settings, successChan) }()`: a send on
`successChan` (made inside `RunOnce`) or the send of the value `RunOnce`
returned on `errChan`. -/
inductive ChanOp where
  | success
  | err (r : Option GoError)
  deriving DecidableEq, Repr

/-- The number of receives on `successChan` that `Run` performs during one
attempt: the channel is read at one place only, the first `select`. -/
def successReceives : Nat := 1

/-- The sends the goroutine of one attempt offers, in order: the completed
sends on `success`, then either the send on which the session is stuck, or
the send of the returned value on `errChan`, or nothing more when the session
waits for input for ever or panics (for the panic itself see `attempt`). -/
def goroutineOps (o : Outcome) : List ChanOp :=
  List.replicate (o.trace.count Event.signal) ChanOp.success ++
    match o.status with
    | Status.returned r => [ChanOp.err r]
    | Status.blockedSignal => [ChanOp.success]
    | Status.waitingDecode => []
    | Status.panicked => []

/-- What the supervisor does, in program order. -/
inductive SupEvent where
  | logConnecting (host : String)
  | recvSuccess
  | logConnected (host : String)
  | timer
  | logStable (host : String)
  | assignDelay (d : Int)
  | recvErrDropped (v : Option GoError)
  | recvErr (v : Option GoError)
  | logError (e : GoError)
  | closeChans
  | logSleeping (d : Int)
  | sleep (d : Int)
  | processExit
  deriving DecidableEq, Repr

/-- One pass through the body of the `for` loop of `Run`: the events, the value
of `nextDelay` where the pass ended, and whether it reached the end of the
body (`false`: it is stuck for ever in a channel receive).
`recvErrDropped v` is a completed `case <-errChan:` (the received value `v` is
not stored), `recvErr v` a completed `err = <-errChan`, `processExit` the end
of the process by a panic of the session goroutine. -/
structure Iteration where
  trace : List SupEvent
  nextDelay : Int
  finished : Bool
  deriving DecidableEq, Repr

/-- Events `es` happen, then `it`. -/
def Iteration.after (es : List SupEvent) (it : Iteration) : Iteration :=
  ⟨es ++ it.trace, it.nextDelay, it.finished⟩

/-- The log line `log.Println("error:", err)`, written when `err != nil`. -/
def errorLog : Option GoError → List SupEvent
  | some e => [SupEvent.logError e]
  | none => []

/-- The statement `err = <-errChan` and the rest of the loop body after the
`select`: log the error if there is one, close the channels, log, sleep,
update `nextDelay`.  The receive completes only if the next operation of the
goroutine is its send on `errChan`. -/
def recvErrThen (ops : List ChanOp) (nextDelay : Int) : Iteration :=
  match ops with
  | ChanOp.err r :: _ =>
      ⟨[SupEvent.recvErr r] ++ errorLog r ++
          [SupEvent.closeChans, SupEvent.logSleeping nextDelay, SupEvent.sleep nextDelay],
        growDelay nextDelay, true⟩
  | _ => ⟨[], nextDelay, false⟩

/-- The body of the `for` loop of `Run` for one attempt whose goroutine offers
`ops`; `timerFirst` tells whether `time.After(3600 * time.Second)` fires before
the goroutine is ready to send on `errChan`. -/
def iteration (host : String) (ops : List ChanOp) (timerFirst : Bool) (nextDelay : Int) :
    Iteration :=
  Iteration.after [SupEvent.logConnecting host] <|
    match ops with
    | [] => ⟨[], nextDelay, false⟩
    | ChanOp.err r :: rest =>
        -- outer `case <-errChan:` then `err = <-errChan`
        (recvErrThen rest nextDelay).after [SupEvent.recvErrDropped r]
    | ChanOp.success :: rest =>
        -- outer `case <-successChan:`
        Iteration.after [SupEvent.recvSuccess, SupEvent.logConnected host] <|
          match rest, timerFirst with
          | ChanOp.err r :: rest2, false =>
              -- inner `case <-errChan:` then `err = <-errChan`
              (recvErrThen rest2 nextDelay).after [SupEvent.recvErrDropped r]
          | _, _ =>
              -- inner `case <-time.After(...)`: reset, then `err = <-errChan`
              (recvErrThen rest baseDelay).after
                [SupEvent.timer, SupEvent.logStable host, SupEvent.assignDelay baseDelay]

/-- The body of the `for` loop of `Run` for one attempt whose goroutine
panics, after `signals` completed sends on `success`: the supervisor gets as
far as the panic lets it, then the process exits.  `timerFirst` tells whether
`time.After(3600 * time.Second)` fires before the panic. -/
def crashedIteration (host : String) (signals : Nat) (timerFirst : Bool) (nextDelay : Int) :
    Iteration :=
  Iteration.after [SupEvent.logConnecting host] <|
    if signals = 0 then ⟨[SupEvent.processExit], nextDelay, false⟩
    else
      Iteration.after [SupEvent.recvSuccess, SupEvent.logConnected host] <|
        if timerFirst then
          ⟨[SupEvent.timer, SupEvent.logStable host, SupEvent.assignDelay baseDelay,
            SupEvent.processExit], baseDelay, false⟩
        else ⟨[SupEvent.processExit], nextDelay, false⟩

/-- One attempt: the loop body of `Run` against the goroutine running
`RunOnce` on transport `t`. -/
def attempt (wide : Char → Bool) (settings : Settings) (t : Transport) (timerFirst : Bool)
    (nextDelay : Int) : Iteration :=
  match (RunOnce wide settings t successReceives).status with
  | Status.panicked =>
      crashedIteration settings.Host
        ((RunOnce wide settings t successReceives).trace.count Event.signal) timerFirst nextDelay
  | _ =>
      iteration settings.Host (goroutineOps (RunOnce wide settings t successReceives))
        timerFirst nextDelay

/-- The `for` loop of `Run` over the successive attempts (transport behaviour
and timer race of each); the loop goes on to the next attempt only when the
body reached its end. -/
def runLoop (wide : Char → Bool) (settings : Settings) :
    List (Transport × Bool) → Int → List SupEvent
  | [], _ => []
  | (t, timerFirst) :: more, nextDelay =>
      let it := attempt wide settings t timerFirst nextDelay
      if it.finished then it.trace ++ runLoop wide settings more it.nextDelay
      else it.trace

/-- `Run(settings)`: the loop, entered with `nextDelay := baseDelay`. -/
def Run (wide : Char → Bool) (settings : Settings) (attempts : List (Transport × Bool)) :
    List SupEvent :=
  runLoop wide settings attempts baseDelay

/-! ## Failures of transport operations -/

/-- The error with which a transport operation failed, if it is one and did. -/
def Event.failure : Event → Option GoError
  | Event.dial _ err => err
  | Event.encode _ err => err
  | Event.decode (ReadResult.fail e) => some e
  | _ => none

/-- A session outcome in which either no transport operation failed, or
exactly the last event is a failed transport operation and the session
returned its error. -/
def Good (o : Outcome) : Prop :=
  (∀ ev ∈ o.trace, ev.failure = none) ∨
    ∃ init ev e, o.trace = init ++ [ev] ∧ (∀ x ∈ init, x.failure = none) ∧
      ev.failure = some e ∧ o.status = Status.returned (some e)

/-! ## Sample inputs -/

/-- Settings with the default host, nick and away text of `main` and three
channels. -/
def sampleSettings : Settings :=
  { Host := "localhost:6667", Name := "duck",
    AwayText := "Hi! Tell me about your problems :⊃", Channels := ["A", "B", "C"] }

/-- A transport on which the dial and every send succeed and the reads
deliver `reads`. -/
def serverSends (reads : List ReadResult) : Transport :=
  { dial := none, encode := fun _ => none, decode := reads }

/-- A transport on which the dial fails. -/
def refusing (e : GoError) : Transport :=
  { dial := some e, encode := fun _ => none, decode := [] }

/-- A welcome reply. -/
def welcome : Message := { Command := irc.RPL_WELCOME, Params := ["duck"], Trailing := "Welcome" }

/-- A `PING` with two parameters and a trailing text. -/
def ping : Message := { Command := irc.PING, Params := ["p1", "p2"], Trailing := "x" }

/-- A `NOTICE`. -/
def notice : Message := { Command := "NOTICE", Params := ["*"], Trailing := "Looking up your hostname" }

/-- A command made of the letter A, a double quote and the letter B. -/
def oddCommand : String := String.mk ['A', strconv.dquote, 'B']

/-- A second `PING`, with other contents. -/
def ping2 : Message := { Command := irc.PING, Params := ["q"], Trailing := "y" }

/-- Is the event the sending of a `PONG`? -/
def isPong : Event → Bool
  | Event.encode m _ => m.Command == "PONG"
  | _ => false

/-- Is the event the reading of a `PING`? -/
def isPingRead : Event → Bool
  | Event.decode (ReadResult.msg m) => m.Command == irc.PING
  | _ => false

/-- A transport whose server welcomes, sends one `PING` and then drops the
connection: the read after the `PING` fails with `e`. -/
def dropsAfterPing (e : GoError) : Transport :=
  serverSends [ReadResult.msg welcome, ReadResult.msg ping, ReadResult.fail e]

/-- A transport whose server welcomes and sends one `PING`, and on which the
seventh send (after `NICK`, `USER`, `AWAY` and three `JOIN`s: the `PONG`)
fails with `e`. -/
def pongFails (e : GoError) : Transport :=
  { dial := none, encode := fun k => if k = 6 then some e else none,
    decode := [ReadResult.msg welcome, ReadResult.msg ping] }

/-! ## Back-off arithmetic -/

theorem growDelay_maxDelay : growDelay maxDelay = maxDelay := by decide

theorem delayAt_five_add (n : Nat) : delayAt (n + 5) = maxDelay := by
  induction n with
  | zero => decide
  | succ n ih =>
      show growDelay (delayAt (n + 5)) = maxDelay
      rw [ih, growDelay_maxDelay]

theorem cap_lt_grown (n : Nat) : maxDelay < baseDelay * delayFactor ^ (n + 5) := by
  have h1 : (1 : Int) ≤ delayFactor ^ n := by
    have : (0 : Int) < delayFactor ^ n := pow_pos (by decide) n
    omega
  have h2 : baseDelay * delayFactor ^ (n + 5) = (baseDelay * delayFactor ^ 5) * delayFactor ^ n := by
    rw [pow_add]; ring
  have h3 : maxDelay < baseDelay * delayFactor ^ 5 := by decide
  have h4 : (0 : Int) < baseDelay * delayFactor ^ 5 := by decide
  rw [h2]
  nlinarith

/-- Arithmetic of the update.  Starting from `baseDelay` and applying the
update of `Run` once per iteration (the end of the loop body sleeps for the
current delay and then updates it), the delay after `i` updates is
`min (base * factor ^ i) cap` with base 30 s, factor 5 and cap 6 h in
nanoseconds; the 64-bit multiplication of the update never wraps; the delays
never decrease and never exceed the cap. -/
theorem growDelay_iterates (i : Nat) :
    delayAt i = min (baseDelay * delayFactor ^ i) maxDelay
      ∧ baseDelay = 30 * 10 ^ 9 ∧ delayFactor = 5 ∧ maxDelay = 6 * 3600 * 10 ^ 9
      ∧ wrapInt64 (delayAt i * delayFactor) = delayAt i * delayFactor
      ∧ delayAt i ≤ delayAt (i + 1)
      ∧ delayAt i ≤ maxDelay
      ∧ (∀ r rest d, SupEvent.sleep d ∈ (recvErrThen (ChanOp.err r :: rest) d).trace
          ∧ (recvErrThen (ChanOp.err r :: rest) d).nextDelay = growDelay d) := by
  refine ⟨?_, by decide, by decide, by decide, ?_, ?_, ?_, ?_⟩
  rotate_right 1
  · intro r rest d
    exact ⟨by simp [recvErrThen], rfl⟩
  · rcases Nat.lt_or_ge i 5 with h | h
    · interval_cases i <;> decide
    · obtain ⟨n, rfl⟩ : ∃ n, i = n + 5 := ⟨i - 5, by omega⟩
      rw [delayAt_five_add, min_eq_right (le_of_lt (cap_lt_grown n))]
  · rcases Nat.lt_or_ge i 5 with h | h
    · interval_cases i <;> decide
    · obtain ⟨n, rfl⟩ : ∃ n, i = n + 5 := ⟨i - 5, by omega⟩
      rw [delayAt_five_add]
      decide
  · rcases Nat.lt_or_ge i 5 with h | h
    · interval_cases i <;> decide
    · obtain ⟨n, rfl⟩ : ∃ n, i = n + 5 := ⟨i - 5, by omega⟩
      have h6 : delayAt (n + 5 + 1) = maxDelay := delayAt_five_add (n + 1)
      rw [h6, delayAt_five_add]
  · rcases Nat.lt_or_ge i 5 with h | h
    · interval_cases i <;> decide
    · obtain ⟨n, rfl⟩ : ∃ n, i = n + 5 := ⟨i - 5, by omega⟩
      rw [delayAt_five_add]

/-! ## Sessions: basic facts -/

@[simp] theorem Outcome.after_trace (es : List Event) (o : Outcome) :
    (o.after es).trace = es ++ o.trace := rfl

@[simp] theorem Outcome.after_status (es : List Event) (o : Outcome) :
    (o.after es).status = o.status := rfl

theorem encodeThen_ok {t : Transport} {k : Nat} (h : t.encode k = none) (m : Message)
    (next : Outcome) : encodeThen t k m next = next.after [Event.encode m none] := by
  simp [encodeThen, h]

theorem encodeThen_fail {t : Transport} {k : Nat} {e : GoError} (h : t.encode k = some e)
    (m : Message) (next : Outcome) :
    encodeThen t k m next = ⟨[Event.encode m (some e)], Status.returned (some e)⟩ := by
  simp [encodeThen, h]

/-- A `PING` whose signal is taken by the other side: the session signals,
sends the `PONG` and, if that succeeded, reads on. -/
theorem steadyState_ping (t : Transport) (recvs : Nat) (m : Message) (rest : List ReadResult)
    (k s : Nat) (hc : m.Command = irc.PING) (hs : s < recvs) :
    steadyState t recvs (ReadResult.msg m :: rest) k s =
      (encodeThen t k (pongFor m) (steadyState t recvs rest (k + 1) (s + 1))).after
        [Event.decode (ReadResult.msg m), Event.signal] := by
  simp [steadyState, hc, hs]

/-- A `PING` whose signal nobody takes: the session is stuck in the send. -/
theorem steadyState_ping_blocked (t : Transport) (recvs : Nat) (m : Message)
    (rest : List ReadResult) (k s : Nat) (hc : m.Command = irc.PING) (hs : recvs ≤ s) :
    steadyState t recvs (ReadResult.msg m :: rest) k s =
      ⟨[Event.decode (ReadResult.msg m)], Status.blockedSignal⟩ := by
  simp [steadyState, hc, Nat.not_lt.mpr hs]

/-- A message other than `PING` is read and nothing else happens. -/
theorem steadyState_other (t : Transport) (recvs : Nat) (m : Message)
    (rest : List ReadResult) (k s : Nat) (hc : m.Command ≠ irc.PING) :
    steadyState t recvs (ReadResult.msg m :: rest) k s =
      (steadyState t recvs rest k s).after [Event.decode (ReadResult.msg m)] := by
  simp [steadyState, hc]

/-- The steady-state loop starts with a read. -/
theorem steadyState_starts_with_decode (t : Transport) (recvs : Nat) (reads : List ReadResult)
    (k s : Nat) :
    (steadyState t recvs reads k s).trace = [] ∨
      ∃ r tl, (steadyState t recvs reads k s).trace = Event.decode r :: tl := by
  cases reads with
  | nil => left; rfl
  | cons r rest =>
      right
      cases r with
      | fail e => exact ⟨_, _, rfl⟩
      | empty => exact ⟨_, _, rfl⟩
      | msg m =>
          by_cases hc : m.Command = irc.PING
          · by_cases hs : s < recvs
            · rw [steadyState_ping t recvs m rest k s hc hs]; exact ⟨_, _, rfl⟩
            · rw [steadyState_ping_blocked t recvs m rest k s hc (Nat.le_of_not_lt hs)]
              exact ⟨_, _, rfl⟩
          · rw [steadyState_other t recvs m rest k s hc]; exact ⟨_, _, rfl⟩

/-- With every `Encode` succeeding, the join loop sends one `JOIN` per channel
in list order, pausing after each, and then enters the steady-state loop. -/
theorem joinChannels_ok (t : Transport) (recvs : Nat) (reads : List ReadResult)
    (henc : ∀ k, t.encode k = none) (channels : List String) (k : Nat) :
    joinChannels t recvs reads channels k =
      (steadyState t recvs reads (k + channels.length) 0).after
        (channels.flatMap fun c => [Event.encode (joinMsg c) none, Event.sleep 2]) := by
  induction channels generalizing k with
  | nil => simp [joinChannels, Outcome.after]
  | cons c cs ih =>
      simp only [joinChannels, encodeThen_ok (henc k), ih (k + 1)]
      simp [Outcome.after, List.flatMap, Nat.add_assoc, Nat.add_comm 1]

/-- C7. On a transport where the dial and every send succeed and the first
read yields the welcome reply, the events of `RunOnce` are, in order: the
dial; send `NICK [Name]`; send `USER [Name, "0", "*"]` with trailing `Name`;
one read (the welcome); send `AWAY` with trailing `AwayText` exactly when
`AwayText` is not empty; for each channel of `Channels` in list order one
`JOIN [c]` followed by the pause `time.Sleep(2)`; and then the events of the
steady-state loop, which begin with a read. -/
theorem handshake_order (wide : Char → Bool) (settings : Settings) (t : Transport)
    (recvs : Nat) (m : Message) (rest : List ReadResult)
    (hdial : t.dial = none) (henc : ∀ k, t.encode k = none)
    (hread : t.decode = ReadResult.msg m :: rest) (hw : m.Command = irc.RPL_WELCOME) :
    ∃ k, RunOnce wide settings t recvs =
        (steadyState t recvs rest k 0).after
          ([Event.dial settings.Host none,
            Event.encode ⟨irc.NICK, [settings.Name], ""⟩ none,
            Event.encode ⟨irc.USER, [settings.Name, "0", "*"], settings.Name⟩ none,
            Event.decode (ReadResult.msg m)]
            ++ (if settings.AwayText ≠ "" then
                  [Event.encode ⟨irc.AWAY, [], settings.AwayText⟩ none] else [])
            ++ settings.Channels.flatMap
                (fun c => [Event.encode ⟨irc.JOIN, [c], ""⟩ none, Event.sleep 2]))
      ∧ ((steadyState t recvs rest k 0).trace = [] ∨
          ∃ r tl, (steadyState t recvs rest k 0).trace = Event.decode r :: tl) := by
  by_cases ha : settings.AwayText = ""
  · refine ⟨2 + settings.Channels.length, ?_, steadyState_starts_with_decode _ _ _ _ _⟩
    simp [RunOnce, hdial, encodeThen_ok (henc _), awaitWelcome, hread, afterWelcome, hw, ha,
      joinChannels_ok t recvs rest henc, Outcome.after, nickMsg, userMsg, joinMsg]
  · refine ⟨3 + settings.Channels.length, ?_, steadyState_starts_with_decode _ _ _ _ _⟩
    simp [RunOnce, hdial, encodeThen_ok (henc _), awaitWelcome, hread, afterWelcome, hw, ha,
      joinChannels_ok t recvs rest henc, Outcome.after, nickMsg, userMsg, joinMsg, awayMsg]

/-! ## Errors end the session -/

theorem Good.of_failure {ev : Event} {e : GoError} (h : ev.failure = some e) :
    Good ⟨[ev], Status.returned (some e)⟩ :=
  Or.inr ⟨[], ev, e, rfl, by simp, h, rfl⟩

theorem Good.of_clean {o : Outcome} (h : ∀ ev ∈ o.trace, ev.failure = none) : Good o :=
  Or.inl h

theorem Good.after {es : List Event} {o : Outcome} (hes : ∀ ev ∈ es, ev.failure = none)
    (h : Good o) : Good (o.after es) := by
  rcases h with h | ⟨init, ev, e, htr, hinit, hev, hst⟩
  · left
    intro ev hev
    rcases List.mem_append.mp hev with h1 | h1
    · exact hes ev h1
    · exact h ev h1
  · right
    refine ⟨es ++ init, ev, e, ?_, ?_, hev, hst⟩
    · simp [Outcome.after, htr]
    · intro x hx
      rcases List.mem_append.mp hx with h1 | h1
      · exact hes x h1
      · exact hinit x h1

theorem Good.encodeThen (t : Transport) (k : Nat) (m : Message) {next : Outcome}
    (h : Good next) : Good (encodeThen t k m next) := by
  cases hk : t.encode k with
  | none =>
      rw [encodeThen_ok hk]
      exact Good.after (by simp [Event.failure]) h
  | some e =>
      rw [encodeThen_fail hk]
      exact Good.of_failure rfl

theorem Good.steadyState (t : Transport) (recvs : Nat) (reads : List ReadResult) (k s : Nat) :
    Good (steadyState t recvs reads k s) := by
  induction reads generalizing k s with
  | nil => exact Good.of_clean (by simp [Duck.steadyState])
  | cons r rest ih =>
      cases r with
      | fail e => exact Good.of_failure rfl
      | empty => exact Good.of_clean (by simp [Duck.steadyState, Event.failure])
      | msg m =>
          by_cases hc : m.Command = irc.PING
          · by_cases hs : s < recvs
            · rw [steadyState_ping t recvs m rest k s hc hs]
              exact Good.after (by simp [Event.failure]) (Good.encodeThen _ _ _ (ih _ _))
            · rw [steadyState_ping_blocked t recvs m rest k s hc (Nat.le_of_not_lt hs)]
              exact Good.of_clean (by simp [Event.failure])
          · rw [steadyState_other t recvs m rest k s hc]
            exact Good.after (by simp [Event.failure]) (ih _ _)

theorem Good.joinChannels (t : Transport) (recvs : Nat) (reads : List ReadResult)
    (channels : List String) (k : Nat) : Good (joinChannels t recvs reads channels k) := by
  induction channels generalizing k with
  | nil => exact Good.steadyState _ _ _ _ _
  | cons c cs ih =>
      exact Good.encodeThen _ _ _ (Good.after (by simp [Event.failure]) (ih _))

theorem Good.RunOnce (wide : Char → Bool) (settings : Settings) (t : Transport) (recvs : Nat) :
    Good (RunOnce wide settings t recvs) := by
  unfold Duck.RunOnce
  cases hd : t.dial with
  | some e => exact Good.of_failure rfl
  | none =>
      refine Good.after (by simp [Event.failure]) (Good.encodeThen _ _ _ (Good.encodeThen _ _ _ ?_))
      unfold awaitWelcome
      cases hr : t.decode with
      | nil => exact Good.of_clean (by simp)
      | cons r rest =>
          cases r with
          | fail e => exact Good.of_failure rfl
          | empty => exact Good.of_clean (by simp [Event.failure])
          | msg m =>
              refine Good.after (by simp [Event.failure]) ?_
              unfold afterWelcome
              split
              · exact Good.of_clean (by simp)
              · split
                · exact Good.encodeThen _ _ _ (Good.joinChannels _ _ _ _ _)
                · exact Good.joinChannels _ _ _ _ _

/-- The first event of a session is the dial, with the result it had. -/
theorem RunOnce_head (wide : Char → Bool) (settings : Settings) (t : Transport) (recvs : Nat) :
    (RunOnce wide settings t recvs).trace.head? = some (Event.dial settings.Host t.dial) := by
  unfold RunOnce
  cases hd : t.dial <;> rfl

/-- A failed transport operation (the dial, a send, or a read) at any place of
the trace of `RunOnce` is the last event of the session: nothing is sent, read
or signalled after it; `RunOnce` returns its error; and no operation before it
failed. -/
theorem failure_is_last (wide : Char → Bool) (settings : Settings) (t : Transport)
    (recvs : Nat) (before after : List Event) (ev : Event) (e : GoError)
    (htrace : (RunOnce wide settings t recvs).trace = before ++ ev :: after)
    (hfail : ev.failure = some e) :
    after = []
      ∧ (RunOnce wide settings t recvs).status = Status.returned (some e)
      ∧ (∀ x ∈ before, x.failure = none)
      ∧ (RunOnce wide settings t recvs).trace.head? = some (Event.dial settings.Host t.dial) := by
  have hhead := RunOnce_head wide settings t recvs
  rcases Good.RunOnce wide settings t recvs with h | ⟨init, ev2, e2, htr, hinit, hev, hst⟩
  · have : ev.failure = none := h ev (by rw [htrace]; simp)
    rw [hfail] at this
    cases this
  · rw [htr] at htrace
    -- the failed event cannot lie in `init`
    have key : after = [] ∧ ev2 = ev ∧ init = before := by
      rcases List.append_eq_append_iff.mp htrace with ⟨as, h1, h2⟩ | ⟨bs, h1, h2⟩
      · -- before = init ++ as, [ev2] = as ++ ev :: after
        cases as with
        | nil =>
            simp at h2
            simp at h1
            exact ⟨h2.2, h2.1, h1.symm⟩
        | cons a as2 =>
            simp at h2
      · -- init = before ++ bs, ev :: after = bs ++ [ev2]
        cases bs with
        | nil =>
            simp at h2
            simp at h1
            exact ⟨h2.2, h2.1.symm, h1⟩
        | cons b bs2 =>
            simp at h2
            have hb : b.failure = none := hinit b (by rw [h1]; simp)
            rw [← h2.1, hfail] at hb
            cases hb
    obtain ⟨h1, h2, h3⟩ := key
    subst h2 h3
    rw [hfail] at hev
    cases hev
    exact ⟨h1, hst, hinit, hhead⟩

/-! ## The error for an unexpected first message -/

/-- A command of which `strconv.Quote` escapes no character is contained, as
it is, in the quoted form. -/
theorem Quote_contains (wide : Char → Bool) (c : String)
    (h : ∀ ch ∈ c.data, strconv.escapeRune wide ch = [ch]) :
    c.data <:+: (strconv.Quote wide c).data := by
  have hflat : ∀ l : List Char, (∀ ch ∈ l, strconv.escapeRune wide ch = [ch]) →
      l.flatMap (strconv.escapeRune wide) = l := by
    intro l
    induction l with
    | nil => intro _; rfl
    | cons a l ih =>
        intro hl
        have ha := hl a (by simp)
        have hl2 := ih (fun ch hch => hl ch (by simp [hch]))
        simp [List.flatMap_cons, ha, hl2]
  refine ⟨[strconv.dquote], [strconv.dquote], ?_⟩
  simp [strconv.Quote, hflat c.data h]

/-- C8 (as amended). When the dial and the two registration sends succeed and
the first read yields a message whose command `c` is not the welcome reply,
the session consists of the dial, `NICK`, `USER` and that read (no `AWAY`, no
`JOIN`, no signal), and `RunOnce` returns the error whose text is
`expected welcome, got` followed by `strconv.Quote c`.  That text contains
`c` itself unless `c` has a character that `Quote` writes in escaped form. -/
theorem unexpected_welcome_error (wide : Char → Bool) (settings : Settings) (t : Transport)
    (recvs : Nat) (m : Message) (rest : List ReadResult)
    (hdial : t.dial = none) (hnick : t.encode 0 = none) (huser : t.encode 1 = none)
    (hread : t.decode = ReadResult.msg m :: rest) (hw : m.Command ≠ irc.RPL_WELCOME) :
    RunOnce wide settings t recvs =
        ⟨[Event.dial settings.Host none,
          Event.encode ⟨irc.NICK, [settings.Name], ""⟩ none,
          Event.encode ⟨irc.USER, [settings.Name, "0", "*"], settings.Name⟩ none,
          Event.decode (ReadResult.msg m)],
         Status.returned
          (some (errors.New ("expected welcome, got" ++ strconv.Quote wide m.Command)))⟩
      ∧ ((∃ ch ∈ m.Command.data, strconv.escapeRune wide ch ≠ [ch]) ∨
          m.Command.data <:+:
            (errors.New ("expected welcome, got" ++ strconv.Quote wide m.Command)).text.data) := by
  constructor
  · simp [RunOnce, hdial, encodeThen_ok hnick, encodeThen_ok huser, awaitWelcome, hread,
      afterWelcome, hw, Outcome.after, nickMsg, userMsg, welcomeError]
  · by_cases h : ∃ ch ∈ m.Command.data, strconv.escapeRune wide ch ≠ [ch]
    · exact Or.inl h
    · right
      push_neg at h
      obtain ⟨a, b, hab⟩ := Quote_contains wide m.Command h
      refine ⟨"expected welcome, got".data ++ a, b, ?_⟩
      simp only [errors.New, String.data_append, List.append_assoc] at *
      rw [← hab]

/-- C8 witness: the command `NOTICE`. -/
theorem unexpected_welcome_error_witness :
    (RunOnce (fun _ => false) sampleSettings (serverSends [ReadResult.msg notice]) 1).status
        = Status.returned (some (errors.New
            (String.mk ("expected welcome, got".data ++
              [strconv.dquote] ++ "NOTICE".data ++ [strconv.dquote]))))
      ∧ "NOTICE".data <:+:
          (errors.New ("expected welcome, got" ++ strconv.Quote (fun _ => false) "NOTICE")).text.data := by
  have h := unexpected_welcome_error (fun _ => false) sampleSettings
    (serverSends [ReadResult.msg notice]) 1 notice [] rfl rfl rfl rfl (by decide)
  refine ⟨?_, ?_⟩
  · rw [h.1]; decide
  · rcases h.2 with ⟨ch, hch, hne⟩ | h2
    · exact absurd hch (by revert ch; decide)
    · exact h2

/-- C8 counterexample: the first message has as command the letter A, a double
quote and the letter B.  It is not the welcome reply, and the session returns
an error whose text does not contain the command. -/
theorem unexpected_welcome_counterexample :
    oddCommand ≠ irc.RPL_WELCOME ∧
    ∃ e, (RunOnce (fun _ => false) sampleSettings
            (serverSends [ReadResult.msg ⟨oddCommand, [], ""⟩]) 1).status
          = Status.returned (some e)
      ∧ ¬ (oddCommand.data <:+: e.text.data) := by
  refine ⟨by decide, _, rfl, ?_⟩
  decide

/-! ## Signals and replies in the steady state -/

/-- A `PING` whose signal is taken and whose reply is accepted by the
transport: the session signals, sends `PONG` with the parameters and the
trailing text of the `PING`, and reads on. -/
theorem steadyState_ping_echo (t : Transport) (recvs : Nat) (m : Message)
    (rest : List ReadResult) (k s : Nat) (hc : m.Command = irc.PING) (hs : s < recvs)
    (hk : t.encode k = none) :
    steadyState t recvs (ReadResult.msg m :: rest) k s =
      (steadyState t recvs rest (k + 1) (s + 1)).after
        [Event.decode (ReadResult.msg m), Event.signal,
          Event.encode ⟨"PONG", m.Params, m.Trailing⟩ none] := by
  rw [steadyState_ping t recvs m rest k s hc hs, encodeThen_ok hk]
  simp [Outcome.after, pongFor]

/-- C5 (fails on the code). Two `PING`s after the welcome.  Against a reader
that takes two values from `success`, `RunOnce` emits the signal twice; against
`Run`, which takes one, the second `success <- true` never completes and the
session is stuck in it. -/
theorem second_ping_signals_again (wide : Char → Bool) :
    (RunOnce wide sampleSettings
        (serverSends [ReadResult.msg welcome, ReadResult.msg ping, ReadResult.msg ping2])
        2).trace.count Event.signal = 2
      ∧ (RunOnce wide sampleSettings
          (serverSends [ReadResult.msg welcome, ReadResult.msg ping, ReadResult.msg ping2])
          successReceives).status = Status.blockedSignal := by
  constructor <;> rfl

/-- C6 (fails on the code). Two `PING`s after the welcome, under `Run`: both
are read, the first is answered by `PONG` with its parameters and trailing
text, the second is never answered: the last event of the session is the read
of the second `PING`, and the session is stuck in the send on `success`; the
supervisor then never gets an outcome. -/
theorem second_ping_unanswered (wide : Char → Bool) (timerFirst : Bool) (nextDelay : Int) :
    (RunOnce wide sampleSettings
        (serverSends [ReadResult.msg welcome, ReadResult.msg ping, ReadResult.msg ping2])
        successReceives).trace.filter isPingRead
        = [Event.decode (ReadResult.msg ping), Event.decode (ReadResult.msg ping2)]
      ∧ (RunOnce wide sampleSettings
          (serverSends [ReadResult.msg welcome, ReadResult.msg ping, ReadResult.msg ping2])
          successReceives).trace.filter isPong
        = [Event.encode ⟨"PONG", ["p1", "p2"], "x"⟩ none]
      ∧ (RunOnce wide sampleSettings
          (serverSends [ReadResult.msg welcome, ReadResult.msg ping, ReadResult.msg ping2])
          successReceives).trace.getLast? = some (Event.decode (ReadResult.msg ping2))
      ∧ (RunOnce wide sampleSettings
          (serverSends [ReadResult.msg welcome, ReadResult.msg ping, ReadResult.msg ping2])
          successReceives).status = Status.blockedSignal
      ∧ (attempt wide sampleSettings
          (serverSends [ReadResult.msg welcome, ReadResult.msg ping, ReadResult.msg ping2])
          timerFirst nextDelay).finished = false := by
  refine ⟨rfl, rfl, rfl, rfl, ?_⟩
  cases timerFirst <;> rfl

/-! ## Completed signals never exceed the receives -/

theorem count_signal_after (es : List Event) (o : Outcome) :
    (o.after es).trace.count Event.signal = es.count Event.signal + o.trace.count Event.signal := by
  simp [List.count_append]

theorem count_signal_encodeThen (t : Transport) (k : Nat) (m : Message) (next : Outcome) :
    (encodeThen t k m next).trace.count Event.signal ≤ next.trace.count Event.signal := by
  cases hk : t.encode k with
  | none =>
      rw [encodeThen_ok hk, count_signal_after]
      simp [List.count_cons]
  | some e =>
      rw [encodeThen_fail hk]
      simp [List.count_cons]

theorem count_signal_steadyState (t : Transport) (recvs : Nat) (reads : List ReadResult)
    (k s : Nat) (hs : s ≤ recvs) :
    (steadyState t recvs reads k s).trace.count Event.signal + s ≤ recvs := by
  induction reads generalizing k s with
  | nil => simpa [steadyState] using hs
  | cons r rest ih =>
      cases r with
      | fail e => simpa [steadyState, List.count_cons] using hs
      | empty => simpa [steadyState, List.count_cons] using hs
      | msg m =>
          by_cases hc : m.Command = irc.PING
          · by_cases hlt : s < recvs
            · rw [steadyState_ping t recvs m rest k s hc hlt, count_signal_after]
              have h1 := count_signal_encodeThen t k (pongFor m)
                (steadyState t recvs rest (k + 1) (s + 1))
              have h2 := ih (k + 1) (s + 1) hlt
              have h3 : [Event.decode (ReadResult.msg m), Event.signal].count Event.signal = 1 := by
                simp [List.count_cons]
              omega
            · rw [steadyState_ping_blocked t recvs m rest k s hc (Nat.le_of_not_lt hlt)]
              simpa [List.count_cons] using hs
          · rw [steadyState_other t recvs m rest k s hc, count_signal_after]
            have h2 := ih k s hs
            have h3 : [Event.decode (ReadResult.msg m)].count Event.signal = 0 := by
              simp [List.count_cons]
            omega

theorem count_signal_joinChannels (t : Transport) (recvs : Nat) (reads : List ReadResult)
    (channels : List String) (k : Nat) :
    (joinChannels t recvs reads channels k).trace.count Event.signal ≤ recvs := by
  induction channels generalizing k with
  | nil =>
      have := count_signal_steadyState t recvs reads k 0 (Nat.zero_le _)
      simpa [joinChannels] using this
  | cons c cs ih =>
      refine le_trans (count_signal_encodeThen _ _ _ _) ?_
      rw [count_signal_after]
      have := ih (k + 1)
      have h3 : [Event.sleep 2].count Event.signal = 0 := by simp [List.count_cons]
      omega

/-- The sends on `success` that complete during a session are at most as many
as the receives the other side performs. -/
theorem count_signal_RunOnce (wide : Char → Bool) (settings : Settings) (t : Transport)
    (recvs : Nat) : (RunOnce wide settings t recvs).trace.count Event.signal ≤ recvs := by
  unfold RunOnce
  cases hd : t.dial with
  | some e => simp [List.count_cons]
  | none =>
      simp only [count_signal_after]
      have h0 : [Event.dial settings.Host none].count Event.signal = 0 := by
        simp [List.count_cons]
      rw [h0, Nat.zero_add]
      refine le_trans (count_signal_encodeThen _ _ _ _) ?_
      refine le_trans (count_signal_encodeThen _ _ _ _) ?_
      unfold awaitWelcome
      cases hr : t.decode with
      | nil => simp
      | cons r rest =>
          cases r with
          | fail e => simp [List.count_cons]
          | empty => simp [List.count_cons]
          | msg m =>
              simp only [count_signal_after]
              have h1 : [Event.decode (ReadResult.msg m)].count Event.signal = 0 := by
                simp [List.count_cons]
              rw [h1, Nat.zero_add]
              unfold afterWelcome
              split
              · simp
              · split
                · exact le_trans (count_signal_encodeThen _ _ _ _)
                    (count_signal_joinChannels _ _ _ _ _)
                · exact count_signal_joinChannels _ _ _ _ _

/-! ## The supervisor against a session that returns -/

/-- Under `Run`, a session that returns `r` offers the supervisor either just
the outcome, or one signal and then the outcome. -/
theorem goroutineOps_returned (wide : Char → Bool) (settings : Settings) (t : Transport)
    (r : Option GoError)
    (h : (RunOnce wide settings t successReceives).status = Status.returned r) :
    goroutineOps (RunOnce wide settings t successReceives) =
      if Event.signal ∈ (RunOnce wide settings t successReceives).trace then
        [ChanOp.success, ChanOp.err r]
      else [ChanOp.err r] := by
  have hle := count_signal_RunOnce wide settings t successReceives
  unfold goroutineOps
  rw [h]
  by_cases hm : Event.signal ∈ (RunOnce wide settings t successReceives).trace
  · have hpos : 0 < (RunOnce wide settings t successReceives).trace.count Event.signal :=
      List.count_pos_iff.mpr hm
    have h1 : (RunOnce wide settings t successReceives).trace.count Event.signal = 1 := by
      have : successReceives = 1 := rfl
      omega
    simp [hm, h1, List.replicate]
  · have h0 : (RunOnce wide settings t successReceives).trace.count Event.signal = 0 :=
      List.count_eq_zero.mpr hm
    simp [hm, h0]

/-- One attempt whose session returns `r`, on each of the three race paths. -/
theorem attempt_returned (wide : Char → Bool) (settings : Settings) (t : Transport)
    (timerFirst : Bool) (nextDelay : Int) (r : Option GoError)
    (h : (RunOnce wide settings t successReceives).status = Status.returned r) :
    attempt wide settings t timerFirst nextDelay =
      if Event.signal ∈ (RunOnce wide settings t successReceives).trace then
        if timerFirst = true then
          ⟨[SupEvent.logConnecting settings.Host, SupEvent.recvSuccess,
              SupEvent.logConnected settings.Host, SupEvent.timer,
              SupEvent.logStable settings.Host, SupEvent.assignDelay baseDelay,
              SupEvent.recvErr r] ++ errorLog r ++
              [SupEvent.closeChans, SupEvent.logSleeping baseDelay, SupEvent.sleep baseDelay],
            growDelay baseDelay, true⟩
        else
          ⟨[SupEvent.logConnecting settings.Host, SupEvent.recvSuccess,
              SupEvent.logConnected settings.Host, SupEvent.recvErrDropped r],
            nextDelay, false⟩
      else
        ⟨[SupEvent.logConnecting settings.Host, SupEvent.recvErrDropped r], nextDelay, false⟩ := by
  unfold attempt
  rw [goroutineOps_returned wide settings t r h, h]
  by_cases hm : Event.signal ∈ (RunOnce wide settings t successReceives).trace
  · cases timerFirst <;> simp [hm, iteration, recvErrThen, Iteration.after]
  · simp [hm, iteration, recvErrThen, Iteration.after]

/-- C1 (fails on the code). An attempt whose session returns `r`.  Only when
the signal came and the timer fired before the outcome does the loop body reach
its end (it then logs a non-nil `r`, sleeps and the loop goes on to the next
attempt).  On the two paths where the outcome comes before the timer, with or
without a signal, the loop stops inside this attempt for ever, whatever the
later attempts would be: `r` is not logged and nothing is slept. -/
theorem Run_progress (wide : Char → Bool) (settings : Settings) (t : Transport)
    (timerFirst : Bool) (nextDelay : Int) (r : Option GoError)
    (more : List (Transport × Bool))
    (h : (RunOnce wide settings t successReceives).status = Status.returned r) :
    ((attempt wide settings t timerFirst nextDelay).finished = true ↔
        (Event.signal ∈ (RunOnce wide settings t successReceives).trace ∧ timerFirst = true))
      ∧ runLoop wide settings ((t, timerFirst) :: more) nextDelay =
          (if Event.signal ∈ (RunOnce wide settings t successReceives).trace ∧ timerFirst = true
            then (attempt wide settings t timerFirst nextDelay).trace ++
              runLoop wide settings more (growDelay baseDelay)
            else (attempt wide settings t timerFirst nextDelay).trace)
      ∧ ((attempt wide settings t timerFirst nextDelay).finished = false →
          (∀ x, SupEvent.sleep x ∉ (attempt wide settings t timerFirst nextDelay).trace) ∧
          (∀ e, SupEvent.logError e ∉ (attempt wide settings t timerFirst nextDelay).trace)) := by
  have ha := attempt_returned wide settings t timerFirst nextDelay r h
  by_cases hm : Event.signal ∈ (RunOnce wide settings t successReceives).trace
  · cases timerFirst
    · simp only [hm, if_true, Bool.false_eq_true, if_false] at ha
      simp [runLoop, ha, hm]
    · simp only [hm, if_true] at ha
      simp [runLoop, ha, hm]
  · simp only [hm, if_false] at ha
    simp [runLoop, ha, hm]

/-- C1 witness: the dial is refused. -/
theorem Run_progress_witness :
    (RunOnce (fun _ => false) sampleSettings (refusing ⟨"connection refused"⟩)
        successReceives).status = Status.returned (some ⟨"connection refused"⟩)
      ∧ Run (fun _ => false) sampleSettings
          [(refusing ⟨"connection refused"⟩, false), (dropsAfterPing ⟨"EOF"⟩, true)]
        = [SupEvent.logConnecting "localhost:6667",
           SupEvent.recvErrDropped (some ⟨"connection refused"⟩)] := by
  have h := Run_progress (fun _ => false) sampleSettings (refusing ⟨"connection refused"⟩)
    false baseDelay (some ⟨"connection refused"⟩) [(dropsAfterPing ⟨"EOF"⟩, true)] rfl
  refine ⟨rfl, ?_⟩
  unfold Run
  rw [h.2.1]
  decide

/-- C4 (fails on the code). An attempt whose session returns `r`: the events of
the loop body on each of the three race paths.  When the signal came and the
timer fired first, `r` is received once, by `err = <-errChan`, and it is the
value tested and logged.  On the two paths where the outcome wins a `select`,
`r` is received by `case <-errChan:` and not stored; nothing is ever received
by `err = <-errChan`, and the loop body does not reach its end. -/
theorem outcome_receive_paths (wide : Char → Bool) (settings : Settings) (t : Transport)
    (timerFirst : Bool) (nextDelay : Int) (r : Option GoError)
    (h : (RunOnce wide settings t successReceives).status = Status.returned r) :
    attempt wide settings t timerFirst nextDelay =
      if Event.signal ∈ (RunOnce wide settings t successReceives).trace then
        if timerFirst = true then
          ⟨[SupEvent.logConnecting settings.Host, SupEvent.recvSuccess,
              SupEvent.logConnected settings.Host, SupEvent.timer,
              SupEvent.logStable settings.Host, SupEvent.assignDelay baseDelay,
              SupEvent.recvErr r] ++ errorLog r ++
              [SupEvent.closeChans, SupEvent.logSleeping baseDelay, SupEvent.sleep baseDelay],
            growDelay baseDelay, true⟩
        else
          ⟨[SupEvent.logConnecting settings.Host, SupEvent.recvSuccess,
              SupEvent.logConnected settings.Host, SupEvent.recvErrDropped r],
            nextDelay, false⟩
      else
        ⟨[SupEvent.logConnecting settings.Host, SupEvent.recvErrDropped r], nextDelay, false⟩ :=
  attempt_returned wide settings t timerFirst nextDelay r h

/-- C4 witness: the connection drops after one `PING`, before the timer. -/
theorem outcome_receive_paths_witness :
    (RunOnce (fun _ => false) sampleSettings (dropsAfterPing ⟨"EOF"⟩) successReceives).status
        = Status.returned (some ⟨"EOF"⟩)
      ∧ attempt (fun _ => false) sampleSettings (dropsAfterPing ⟨"EOF"⟩) false baseDelay =
          ⟨[SupEvent.logConnecting "localhost:6667", SupEvent.recvSuccess,
              SupEvent.logConnected "localhost:6667", SupEvent.recvErrDropped (some ⟨"EOF"⟩)],
            baseDelay, false⟩ := by
  have h := outcome_receive_paths (fun _ => false) sampleSettings (dropsAfterPing ⟨"EOF"⟩)
    false baseDelay (some ⟨"EOF"⟩) rfl
  refine ⟨rfl, ?_⟩
  rw [h]
  decide

/-- C3 (fails on the code). The loop body against a goroutine that offers `ops`.
`nextDelay = baseDelay` is executed exactly when the signal came first and the
timer fired before the outcome.  Signal, timer, then outcome `r`: the body
ends and the sleep lasts `baseDelay`, 30 s.  Outcome `r` before the timer, with
or without a signal: `nextDelay` keeps its value `d`, but the body never
reaches the sleep. -/
theorem backoff_reset_paths (host : String) (r : Option GoError) (timerFirst : Bool) (d : Int) :
    (∀ ops, SupEvent.assignDelay baseDelay ∈ (iteration host ops timerFirst d).trace ↔
        ∃ rest, ops = ChanOp.success :: rest ∧
          (timerFirst = true ∨ ∀ r2 rest2, rest ≠ ChanOp.err r2 :: rest2))
      ∧ ((iteration host [ChanOp.success, ChanOp.err r] true d).finished = true
          ∧ SupEvent.sleep (30 * 10 ^ 9) ∈
              (iteration host [ChanOp.success, ChanOp.err r] true d).trace
          ∧ baseDelay = 30 * 10 ^ 9)
      ∧ ((iteration host [ChanOp.success, ChanOp.err r] false d).nextDelay = d
          ∧ (iteration host [ChanOp.success, ChanOp.err r] false d).finished = false
          ∧ ∀ x, SupEvent.sleep x ∉ (iteration host [ChanOp.success, ChanOp.err r] false d).trace)
      ∧ ((iteration host [ChanOp.err r] timerFirst d).nextDelay = d
          ∧ (iteration host [ChanOp.err r] timerFirst d).finished = false
          ∧ ∀ x, SupEvent.sleep x ∉ (iteration host [ChanOp.err r] timerFirst d).trace) := by
  refine ⟨?_, ?_, ?_, ?_⟩
  · intro ops
    cases ops with
    | nil => simp [iteration, Iteration.after]
    | cons op rest =>
        cases op with
        | err r2 =>
            cases rest with
            | nil => simp [iteration, recvErrThen, Iteration.after]
            | cons op2 rest2 =>
                cases op2 with
                | success => simp [iteration, recvErrThen, Iteration.after]
                | err r3 => cases r3 <;> simp [iteration, recvErrThen, Iteration.after, errorLog]
        | success =>
            cases rest with
            | nil => simp [iteration, recvErrThen, Iteration.after]
            | cons op2 rest2 =>
                cases op2 with
                | success => simp [iteration, recvErrThen, Iteration.after]
                | err r2 =>
                    cases timerFirst
                    · cases rest2 with
                      | nil => simp [iteration, recvErrThen, Iteration.after]
                      | cons op3 rest3 =>
                          cases op3 with
                          | success => simp [iteration, recvErrThen, Iteration.after]
                          | err r3 =>
                              cases r3 <;>
                                simp [iteration, recvErrThen, Iteration.after, errorLog]
                    · simp [iteration, recvErrThen, Iteration.after]
  · refine ⟨rfl, ?_, by decide⟩
    cases r <;> simp [iteration, recvErrThen, Iteration.after, errorLog] <;> decide
  · refine ⟨rfl, rfl, ?_⟩
    intro x
    simp [iteration, recvErrThen, Iteration.after]
  · refine ⟨rfl, rfl, ?_⟩
    intro x
    simp [iteration, recvErrThen, Iteration.after]


/-! ## Instances on sample inputs -/

/-- C7 witness: channels `A`, `B`, `C` and a non-empty away text; after the
welcome the server is silent. -/
theorem handshake_order_witness :
    RunOnce (fun _ => false) sampleSettings (serverSends [ReadResult.msg welcome]) 1 =
      ⟨[Event.dial "localhost:6667" none,
        Event.encode ⟨"NICK", ["duck"], ""⟩ none,
        Event.encode ⟨"USER", ["duck", "0", "*"], "duck"⟩ none,
        Event.decode (ReadResult.msg welcome),
        Event.encode ⟨"AWAY", [], "Hi! Tell me about your problems :⊃"⟩ none,
        Event.encode ⟨"JOIN", ["A"], ""⟩ none, Event.sleep 2,
        Event.encode ⟨"JOIN", ["B"], ""⟩ none, Event.sleep 2,
        Event.encode ⟨"JOIN", ["C"], ""⟩ none, Event.sleep 2],
       Status.waitingDecode⟩ := by
  obtain ⟨k, h, _⟩ := handshake_order (fun _ => false) sampleSettings
    (serverSends [ReadResult.msg welcome]) 1 welcome [] rfl (fun _ => rfl) rfl rfl
  rw [h]
  rfl

/-! ## The sleeps of `Run` -/

/-- Whatever the session of an attempt does, a sleep of the loop body lasts
`baseDelay`: the body reaches the sleep only through the timer branch, which
resets the delay. -/
theorem attempt_sleeps_base (wide : Char → Bool) (settings : Settings) (t : Transport)
    (timerFirst : Bool) (d x : Int)
    (h : SupEvent.sleep x ∈ (attempt wide settings t timerFirst d).trace) : x = baseDelay := by
  have hle := count_signal_RunOnce wide settings t successReceives
  unfold attempt goroutineOps at h
  generalize RunOnce wide settings t successReceives = o at h hle
  obtain ⟨tr, st⟩ := o
  simp only at h hle
  have hn : tr.count Event.signal = 0 ∨ tr.count Event.signal = 1 := by
    have : successReceives = 1 := rfl
    omega
  rcases hn with hn | hn
  · rw [hn] at h
    cases st <;> cases timerFirst <;>
      simp [iteration, recvErrThen, Iteration.after, List.replicate, crashedIteration] at h
  · rw [hn] at h
    cases st with
    | returned r =>
        cases timerFirst
        · simp [iteration, recvErrThen, Iteration.after, List.replicate] at h
        · cases r <;>
            simpa [iteration, recvErrThen, Iteration.after, List.replicate, errorLog] using h
    | waitingDecode =>
        cases timerFirst <;>
          simp [iteration, recvErrThen, Iteration.after, List.replicate] at h
    | blockedSignal =>
        cases timerFirst <;>
          simp [iteration, recvErrThen, Iteration.after, List.replicate] at h
    | panicked =>
        cases timerFirst <;>
          simp [crashedIteration, Iteration.after] at h

/-- Every sleep of the loop lasts `baseDelay`, whatever the attempts and the
delay with which the loop is entered. -/
theorem runLoop_sleeps_base (wide : Char → Bool) (settings : Settings)
    (attempts : List (Transport × Bool)) (d x : Int)
    (h : SupEvent.sleep x ∈ runLoop wide settings attempts d) : x = baseDelay := by
  induction attempts generalizing d with
  | nil => simp [runLoop] at h
  | cons a more ih =>
      obtain ⟨t, timerFirst⟩ := a
      simp only [runLoop] at h
      split at h
      · rcases List.mem_append.mp h with h1 | h1
        · exact attempt_sleeps_base wide settings t timerFirst d x h1
        · exact ih _ h1
      · exact attempt_sleeps_base wide settings t timerFirst d x h

/-- C2 (fails on the code). A run of consecutive attempts that fail at once
(the dial is refused, with errors `e0`, `e1`), whatever follows: `Run` logs
the first connection attempt, receives `e0` in `case <-errChan:` and waits for
ever in `err = <-errChan`.  No delay is slept after attempt 0 and attempt 1 is
never started.  And in no run at all does `Run` sleep for another time than
`baseDelay`, 30 s. -/
theorem backoff_growth_not_reached (wide : Char → Bool) (settings : Settings)
    (e0 e1 : GoError) (tf0 tf1 : Bool) (more : List (Transport × Bool)) :
    Run wide settings ((refusing e0, tf0) :: (refusing e1, tf1) :: more) =
        [SupEvent.logConnecting settings.Host, SupEvent.recvErrDropped (some e0)]
      ∧ (∀ attempts x, SupEvent.sleep x ∈ Run wide settings attempts → x = 30 * 10 ^ 9) := by
  constructor
  · cases tf0 <;> rfl
  · intro attempts x hx
    have h := runLoop_sleeps_base wide settings attempts baseDelay x hx
    rw [h]
    decide

/-- C2 witness: two attempts that each stay up past the timer and then lose
the connection are both followed by a sleep of 30 s, not of 30 s and 150 s. -/
theorem backoff_growth_not_reached_witness :
    (Run (fun _ => false) sampleSettings
        [(dropsAfterPing ⟨"EOF"⟩, true), (dropsAfterPing ⟨"EOF"⟩, true)]).filter
        (fun ev => ev matches SupEvent.sleep _)
      = [SupEvent.sleep (30 * 10 ^ 9), SupEvent.sleep (30 * 10 ^ 9)]
    ∧ Run (fun _ => false) sampleSettings
        [(refusing ⟨"connection refused"⟩, false), (refusing ⟨"connection refused"⟩, false)]
      = [SupEvent.logConnecting "localhost:6667",
         SupEvent.recvErrDropped (some ⟨"connection refused"⟩)] :=
  ⟨by decide,
    (backoff_growth_not_reached (fun _ => false) sampleSettings ⟨"connection refused"⟩
      ⟨"connection refused"⟩ false false []).1⟩

/-! ## Sessions in which a transport operation fails -/

/-- The join loop up to a channel, when the sends for the channels before it
succeed. -/
theorem joinChannels_upto (t : Transport) (recvs : Nat) (reads : List ReadResult)
    (pre more : List String) (k : Nat) (h : ∀ i, i < pre.length → t.encode (k + i) = none) :
    joinChannels t recvs reads (pre ++ more) k =
      (joinChannels t recvs reads more (k + pre.length)).after
        (pre.flatMap fun c => [Event.encode (joinMsg c) none, Event.sleep 2]) := by
  induction pre generalizing k with
  | nil => simp [Outcome.after]
  | cons c cs ih =>
      have h0 : t.encode k = none := by simpa using h 0 (by simp)
      have hrest : ∀ i, i < cs.length → t.encode (k + 1 + i) = none := by
        intro i hi
        have := h (i + 1) (by simp; omega)
        rwa [show k + (i + 1) = k + 1 + i by omega] at this
      have hstep : joinChannels t recvs reads (c :: cs ++ more) k =
          encodeThen t k (joinMsg c)
            ((joinChannels t recvs reads (cs ++ more) (k + 1)).after [Event.sleep 2]) := rfl
      rw [hstep, encodeThen_ok h0, ih (k + 1) hrest]
      simp [Outcome.after, List.flatMap, Nat.add_assoc, Nat.add_comm 1]

/-- The steady-state loop over messages that are all handled: every `PING`
among them has its signal taken and its `PONG` accepted. -/
theorem steadyState_upto (t : Transport) (recvs : Nat) (ms : List Message)
    (tail : List ReadResult) (k s : Nat)
    (hs : s + ms.countP (fun m => decide (m.Command = irc.PING)) ≤ recvs)
    (henc : ∀ i, i < ms.countP (fun m => decide (m.Command = irc.PING)) →
      t.encode (k + i) = none) :
    steadyState t recvs (ms.map ReadResult.msg ++ tail) k s =
      (steadyState t recvs tail (k + ms.countP (fun m => decide (m.Command = irc.PING)))
          (s + ms.countP (fun m => decide (m.Command = irc.PING)))).after
        (ms.flatMap fun m =>
          if m.Command = irc.PING then
            [Event.decode (ReadResult.msg m), Event.signal, Event.encode (pongFor m) none]
          else [Event.decode (ReadResult.msg m)]) := by
  induction ms generalizing k s with
  | nil => simp [Outcome.after]
  | cons m ms ih =>
      by_cases hc : m.Command = irc.PING
      · have hcount : (m :: ms).countP (fun m => decide (m.Command = irc.PING)) =
            ms.countP (fun m => decide (m.Command = irc.PING)) + 1 := by
          simp [List.countP_cons, hc]
        rw [hcount] at hs henc
        have h0 : t.encode k = none := by simpa using henc 0 (by omega)
        have hrest : ∀ i, i < ms.countP (fun m => decide (m.Command = irc.PING)) →
            t.encode (k + 1 + i) = none := by
          intro i hi
          have := henc (i + 1) (by omega)
          rwa [show k + (i + 1) = k + 1 + i by omega] at this
        rw [hcount]
        simp only [List.map_cons, List.cons_append]
        rw [steadyState_ping t recvs m _ k s hc (by omega), encodeThen_ok h0,
          ih (k + 1) (s + 1) (by omega) hrest]
        simp [Outcome.after, List.flatMap, hc, Nat.add_assoc, Nat.add_comm 1]
      · have hcount : (m :: ms).countP (fun m => decide (m.Command = irc.PING)) =
            ms.countP (fun m => decide (m.Command = irc.PING)) := by
          simp [List.countP_cons, hc]
        rw [hcount] at hs henc
        rw [hcount]
        simp only [List.map_cons, List.cons_append]
        rw [steadyState_other t recvs m _ k s hc, ih k s hs henc]
        simp [Outcome.after, List.flatMap, hc]

/-- The session up to the welcome, when the dial and the registration
succeed. -/
theorem RunOnce_welcomed (wide : Char → Bool) (settings : Settings) (t : Transport)
    (recvs : Nat) (m : Message) (rest : List ReadResult) (hdial : t.dial = none)
    (h0 : t.encode 0 = none) (h1 : t.encode 1 = none)
    (hread : t.decode = ReadResult.msg m :: rest) (hw : m.Command = irc.RPL_WELCOME) :
    RunOnce wide settings t recvs =
      (if settings.AwayText ≠ "" then
          encodeThen t 2 (awayMsg settings) (joinChannels t recvs rest settings.Channels 3)
        else joinChannels t recvs rest settings.Channels 2).after
        [Event.dial settings.Host none, Event.encode (nickMsg settings) none,
          Event.encode (userMsg settings) none, Event.decode (ReadResult.msg m)] := by
  simp [RunOnce, hdial, encodeThen_ok h0, encodeThen_ok h1, awaitWelcome, hread, afterWelcome,
    hw, Outcome.after]

/-- The session up to the join loop, when the dial, the registration, the
welcome and the `AWAY` (if any) succeed; `n` sends have been made by then. -/
theorem RunOnce_joining (wide : Char → Bool) (settings : Settings) (t : Transport)
    (recvs : Nat) (m : Message) (rest : List ReadResult) (hdial : t.dial = none)
    (henc : ∀ i, i < (if settings.AwayText ≠ "" then 3 else 2) → t.encode i = none)
    (hread : t.decode = ReadResult.msg m :: rest) (hw : m.Command = irc.RPL_WELCOME) :
    RunOnce wide settings t recvs =
      (joinChannels t recvs rest settings.Channels
          (if settings.AwayText ≠ "" then 3 else 2)).after
        ([Event.dial settings.Host none, Event.encode (nickMsg settings) none,
          Event.encode (userMsg settings) none, Event.decode (ReadResult.msg m)] ++
          (if settings.AwayText ≠ "" then [Event.encode (awayMsg settings) none] else [])) := by
  have h0 : t.encode 0 = none := henc 0 (by split <;> omega)
  have h1 : t.encode 1 = none := henc 1 (by split <;> omega)
  rw [RunOnce_welcomed wide settings t recvs m rest hdial h0 h1 hread hw]
  by_cases ha : settings.AwayText = ""
  · simp [ha, Outcome.after]
  · have h2 : t.encode 2 = none := henc 2 (by simp [ha])
    simp [ha, encodeThen_ok h2, Outcome.after]

/-- The session up to the steady-state loop, when everything before it
succeeds. -/
theorem RunOnce_steady (wide : Char → Bool) (settings : Settings) (t : Transport)
    (recvs : Nat) (m : Message) (rest : List ReadResult) (hdial : t.dial = none)
    (henc : ∀ i, i < (if settings.AwayText ≠ "" then 3 else 2) + settings.Channels.length →
      t.encode i = none)
    (hread : t.decode = ReadResult.msg m :: rest) (hw : m.Command = irc.RPL_WELCOME) :
    RunOnce wide settings t recvs =
      (steadyState t recvs rest
          ((if settings.AwayText ≠ "" then 3 else 2) + settings.Channels.length) 0).after
        ([Event.dial settings.Host none, Event.encode (nickMsg settings) none,
          Event.encode (userMsg settings) none, Event.decode (ReadResult.msg m)] ++
          (if settings.AwayText ≠ "" then [Event.encode (awayMsg settings) none] else []) ++
          settings.Channels.flatMap fun c => [Event.encode (joinMsg c) none, Event.sleep 2]) := by
  rw [RunOnce_joining wide settings t recvs m rest hdial
    (fun i hi => henc i (by omega)) hread hw]
  have hj := joinChannels_upto t recvs rest settings.Channels []
    (if settings.AwayText ≠ "" then 3 else 2) (fun i hi => henc _ (by omega))
  rw [List.append_nil] at hj
  rw [hj]
  simp [joinChannels, Outcome.after]

/-- C9. Whatever transport operation of the session is the first to fail,
with error `e`, the session ends with that operation and `RunOnce` returns
exactly `e`: the trace is the operations that succeeded before, in order,
followed by the failed operation and nothing else (no further send or read,
no signal).  This holds for a failed dial (the only event), a failed send of
`NICK` or `USER`, a failed read of the welcome, a failed send of `AWAY`, a
failed send of the `JOIN` for any channel `c` of the list, a failed read in
the steady-state loop after any messages `ms` that were handled, and a failed
send of the `PONG` for a `PING` `p` read after any such messages. -/
theorem session_error_terminates (wide : Char → Bool) (settings : Settings) (t : Transport)
    (recvs : Nat) (e : GoError) :
    (t.dial = some e →
        RunOnce wide settings t recvs =
          ⟨[Event.dial settings.Host (some e)], Status.returned (some e)⟩)
    ∧ (t.dial = none → t.encode 0 = some e →
        RunOnce wide settings t recvs =
          ⟨[Event.dial settings.Host none,
            Event.encode ⟨irc.NICK, [settings.Name], ""⟩ (some e)],
           Status.returned (some e)⟩)
    ∧ (t.dial = none → t.encode 0 = none → t.encode 1 = some e →
        RunOnce wide settings t recvs =
          ⟨[Event.dial settings.Host none,
            Event.encode ⟨irc.NICK, [settings.Name], ""⟩ none,
            Event.encode ⟨irc.USER, [settings.Name, "0", "*"], settings.Name⟩ (some e)],
           Status.returned (some e)⟩)
    ∧ (∀ rest, t.dial = none → t.encode 0 = none → t.encode 1 = none →
        t.decode = ReadResult.fail e :: rest →
        RunOnce wide settings t recvs =
          ⟨[Event.dial settings.Host none,
            Event.encode ⟨irc.NICK, [settings.Name], ""⟩ none,
            Event.encode ⟨irc.USER, [settings.Name, "0", "*"], settings.Name⟩ none,
            Event.decode (ReadResult.fail e)],
           Status.returned (some e)⟩)
    ∧ (∀ m rest, t.dial = none → t.decode = ReadResult.msg m :: rest →
        m.Command = irc.RPL_WELCOME →
        (t.encode 0 = none → t.encode 1 = none → settings.AwayText ≠ "" →
          t.encode 2 = some e →
          RunOnce wide settings t recvs =
            ⟨[Event.dial settings.Host none,
              Event.encode ⟨irc.NICK, [settings.Name], ""⟩ none,
              Event.encode ⟨irc.USER, [settings.Name, "0", "*"], settings.Name⟩ none,
              Event.decode (ReadResult.msg m),
              Event.encode ⟨irc.AWAY, [], settings.AwayText⟩ (some e)],
             Status.returned (some e)⟩)
        ∧ (∀ (pre : List String) (c : String) (post : List String), settings.Channels = pre ++ c :: post →
            (∀ i, i < (if settings.AwayText ≠ "" then 3 else 2) + pre.length →
              t.encode i = none) →
            t.encode ((if settings.AwayText ≠ "" then 3 else 2) + pre.length) = some e →
            RunOnce wide settings t recvs =
              ⟨[Event.dial settings.Host none,
                Event.encode ⟨irc.NICK, [settings.Name], ""⟩ none,
                Event.encode ⟨irc.USER, [settings.Name, "0", "*"], settings.Name⟩ none,
                Event.decode (ReadResult.msg m)]
                ++ (if settings.AwayText ≠ "" then
                      [Event.encode ⟨irc.AWAY, [], settings.AwayText⟩ none] else [])
                ++ (pre.flatMap fun ch => [Event.encode ⟨irc.JOIN, [ch], ""⟩ none, Event.sleep 2])
                ++ [Event.encode ⟨irc.JOIN, [c], ""⟩ (some e)],
               Status.returned (some e)⟩)
        ∧ (∀ (ms : List Message) (rest2 : List ReadResult), rest = ms.map ReadResult.msg ++ ReadResult.fail e :: rest2 →
            ms.countP (fun x => decide (x.Command = irc.PING)) ≤ recvs →
            (∀ i, i < (if settings.AwayText ≠ "" then 3 else 2) + settings.Channels.length +
                ms.countP (fun x => decide (x.Command = irc.PING)) → t.encode i = none) →
            RunOnce wide settings t recvs =
              ⟨[Event.dial settings.Host none,
                Event.encode ⟨irc.NICK, [settings.Name], ""⟩ none,
                Event.encode ⟨irc.USER, [settings.Name, "0", "*"], settings.Name⟩ none,
                Event.decode (ReadResult.msg m)]
                ++ (if settings.AwayText ≠ "" then
                      [Event.encode ⟨irc.AWAY, [], settings.AwayText⟩ none] else [])
                ++ (settings.Channels.flatMap fun ch =>
                      [Event.encode ⟨irc.JOIN, [ch], ""⟩ none, Event.sleep 2])
                ++ (ms.flatMap fun x =>
                      if x.Command = irc.PING then
                        [Event.decode (ReadResult.msg x), Event.signal,
                          Event.encode ⟨"PONG", x.Params, x.Trailing⟩ none]
                      else [Event.decode (ReadResult.msg x)])
                ++ [Event.decode (ReadResult.fail e)],
               Status.returned (some e)⟩)
        ∧ (∀ (ms : List Message) (p : Message) (rest2 : List ReadResult), rest = ms.map ReadResult.msg ++ ReadResult.msg p :: rest2 →
            p.Command = irc.PING →
            ms.countP (fun x => decide (x.Command = irc.PING)) < recvs →
            (∀ i, i < (if settings.AwayText ≠ "" then 3 else 2) + settings.Channels.length +
                ms.countP (fun x => decide (x.Command = irc.PING)) → t.encode i = none) →
            t.encode ((if settings.AwayText ≠ "" then 3 else 2) + settings.Channels.length +
                ms.countP (fun x => decide (x.Command = irc.PING))) = some e →
            RunOnce wide settings t recvs =
              ⟨[Event.dial settings.Host none,
                Event.encode ⟨irc.NICK, [settings.Name], ""⟩ none,
                Event.encode ⟨irc.USER, [settings.Name, "0", "*"], settings.Name⟩ none,
                Event.decode (ReadResult.msg m)]
                ++ (if settings.AwayText ≠ "" then
                      [Event.encode ⟨irc.AWAY, [], settings.AwayText⟩ none] else [])
                ++ (settings.Channels.flatMap fun ch =>
                      [Event.encode ⟨irc.JOIN, [ch], ""⟩ none, Event.sleep 2])
                ++ (ms.flatMap fun x =>
                      if x.Command = irc.PING then
                        [Event.decode (ReadResult.msg x), Event.signal,
                          Event.encode ⟨"PONG", x.Params, x.Trailing⟩ none]
                      else [Event.decode (ReadResult.msg x)])
                ++ [Event.decode (ReadResult.msg p), Event.signal,
                    Event.encode ⟨"PONG", p.Params, p.Trailing⟩ (some e)],
               Status.returned (some e)⟩)) := by
  refine ⟨?_, ?_, ?_, ?_, ?_⟩
  · intro hd
    simp [RunOnce, hd]
  · intro hd h0
    simp [RunOnce, hd, encodeThen_fail h0, Outcome.after, nickMsg]
  · intro hd h0 h1
    simp [RunOnce, hd, encodeThen_ok h0, encodeThen_fail h1, Outcome.after, nickMsg, userMsg]
  · intro rest hd h0 h1 hread
    simp [RunOnce, hd, encodeThen_ok h0, encodeThen_ok h1, awaitWelcome, hread, Outcome.after,
      nickMsg, userMsg]
  · intro m rest hd hread hw
    refine ⟨?_, ?_, ?_, ?_⟩
    · intro h0 h1 ha h2
      rw [RunOnce_welcomed wide settings t recvs m rest hd h0 h1 hread hw]
      simp [ha, encodeThen_fail h2, Outcome.after, nickMsg, userMsg, awayMsg]
    · intro pre c post hch henc hfail
      rw [RunOnce_joining wide settings t recvs m rest hd (fun i hi => henc i (by omega))
        hread hw, hch,
        joinChannels_upto t recvs rest pre (c :: post) _ (fun i hi => henc _ (by omega))]
      have hstep : joinChannels t recvs rest (c :: post)
          ((if settings.AwayText ≠ "" then 3 else 2) + pre.length) =
          encodeThen t ((if settings.AwayText ≠ "" then 3 else 2) + pre.length) (joinMsg c)
            ((joinChannels t recvs rest post
              ((if settings.AwayText ≠ "" then 3 else 2) + pre.length + 1)).after
                [Event.sleep 2]) := rfl
      rw [hstep, encodeThen_fail hfail]
      simp [Outcome.after, nickMsg, userMsg, awayMsg, joinMsg]
    · intro ms rest2 hrest hcount henc
      rw [RunOnce_steady wide settings t recvs m rest hd (fun i hi => henc i (by omega))
        hread hw, hrest,
        steadyState_upto t recvs ms _ _ 0 (by omega) (fun i hi => henc _ (by omega))]
      simp [steadyState, Outcome.after, nickMsg, userMsg, awayMsg, joinMsg, pongFor]
    · intro ms p rest2 hrest hp hcount henc hfail
      rw [RunOnce_steady wide settings t recvs m rest hd (fun i hi => henc i (by omega))
        hread hw, hrest,
        steadyState_upto t recvs ms _ _ 0 (by omega) (fun i hi => henc _ (by omega)),
        steadyState_ping t recvs p rest2 _ _ hp (by omega), encodeThen_fail hfail]
      simp [Outcome.after, nickMsg, userMsg, awayMsg, joinMsg, pongFor]

/-- C9 witness: the send of the `PONG` fails, after the handshake, three joins
and the read of a `PING`. -/
theorem session_error_terminates_witness :
    RunOnce (fun _ => false) sampleSettings (pongFails ⟨"broken pipe"⟩) 1 =
      ⟨[Event.dial "localhost:6667" none,
        Event.encode ⟨"NICK", ["duck"], ""⟩ none,
        Event.encode ⟨"USER", ["duck", "0", "*"], "duck"⟩ none,
        Event.decode (ReadResult.msg welcome),
        Event.encode ⟨"AWAY", [], "Hi! Tell me about your problems :⊃"⟩ none,
        Event.encode ⟨"JOIN", ["A"], ""⟩ none, Event.sleep 2,
        Event.encode ⟨"JOIN", ["B"], ""⟩ none, Event.sleep 2,
        Event.encode ⟨"JOIN", ["C"], ""⟩ none, Event.sleep 2,
        Event.decode (ReadResult.msg ping), Event.signal,
        Event.encode ⟨"PONG", ["p1", "p2"], "x"⟩ (some ⟨"broken pipe"⟩)],
       Status.returned (some ⟨"broken pipe"⟩)⟩ := by
  have hn : (if sampleSettings.AwayText ≠ "" then 3 else 2) + sampleSettings.Channels.length +
      ([] : List Message).countP (fun x => decide (x.Command = irc.PING)) = 6 := by decide
  have h := ((session_error_terminates (fun _ => false) sampleSettings
    (pongFails ⟨"broken pipe"⟩) 1 ⟨"broken pipe"⟩).2.2.2.2 welcome [ReadResult.msg ping]
    rfl rfl rfl).2.2.2 [] ping [] rfl rfl (by decide)
    (by
      intro i hi
      rw [hn] at hi
      have : i ≠ 6 := by omega
      simp [pongFails, this])
    (by rw [hn]; rfl)
  rw [h]
  rfl

/-! ## Input other than a `PING` in the steady state -/

/-- C10 (fails on the code). In the steady-state loop, in any state of the
session: a message whose command is not `PING` is read and nothing else
happens (nothing is sent, no signal is emitted, the session does not end, the
loop goes on with the next read in the same state).  But when `Decode`
delivers a nil message without an error (an empty line was received),
`switch message.Command` panics: the session ends with that read, the reads
after it never happen, and under `Run` the process exits. -/
theorem non_ping_input (wide : Char → Bool) (t : Transport) (recvs : Nat)
    (rest : List ReadResult) (k s : Nat) (timerFirst : Bool) (d : Int) :
    (∀ m : Message, m.Command ≠ irc.PING →
        steadyState t recvs (ReadResult.msg m :: rest) k s =
          (steadyState t recvs rest k s).after [Event.decode (ReadResult.msg m)])
      ∧ steadyState t recvs (ReadResult.empty :: rest) k s =
          ⟨[Event.decode ReadResult.empty], Status.panicked⟩
      ∧ (RunOnce wide sampleSettings
          (serverSends (ReadResult.msg welcome :: ReadResult.empty :: rest)) recvs).status
          = Status.panicked
      ∧ attempt wide sampleSettings
          (serverSends (ReadResult.msg welcome :: ReadResult.empty :: rest)) timerFirst d
          = ⟨[SupEvent.logConnecting "localhost:6667", SupEvent.processExit], d, false⟩ := by
  refine ⟨fun m hc => steadyState_other t recvs m rest k s hc, rfl, rfl, ?_⟩
  cases timerFirst <;> rfl

/-- C10 witness: a `NOTICE` in the steady state is passed over; an empty line
ends the session. -/
theorem non_ping_input_witness :
    notice.Command ≠ irc.PING
      ∧ steadyState (serverSends []) 1 [ReadResult.msg notice, ReadResult.msg ping] 6 0 =
          (steadyState (serverSends []) 1 [ReadResult.msg ping] 6 0).after
            [Event.decode (ReadResult.msg notice)]
      ∧ steadyState (serverSends []) 1 [ReadResult.empty, ReadResult.msg ping] 6 0 =
          ⟨[Event.decode ReadResult.empty], Status.panicked⟩ :=
  ⟨by decide,
    (non_ping_input (fun _ => false) (serverSends []) 1 [ReadResult.msg ping] 6 0 false 0).1
      notice (by decide),
    (non_ping_input (fun _ => false) (serverSends []) 1 [ReadResult.msg ping] 6 0 false 0).2.1⟩

end Duck
